import Mathlib

set_option maxHeartbeats 1000000

/-
  Verification of the tibber-httpclient library (src/http-client.ts, src/loggers.ts,
  src/log-redaction.ts) against its natural-language specification.

  The TypeScript sources are shallowly embedded below:
  - JavaScript values appearing in request/response bodies are modelled by the
    inductive type Js (JSON fragment: null, booleans, integer numbers, strings,
    arrays, objects as association lists).
  - JSON.parse is modelled by a fuel-driven recursive descent parser jsParse over
    that fragment.
  - The stateful pieces (logger invocations, the node-cache store) are modelled by
    explicit state passing: a call returns its result together with the number of
    logSuccess and logFailure invocations, and the cache client threads an explicit
    CacheState.
-/

namespace TibberHttp

/-- Decides whether the list n occurs as a contiguous sublist of the second
argument.  Used to model the JavaScript String.prototype.includes test. -/
def listInfixOf (n : List Char) : List Char → Bool
  | [] => n.isEmpty
  | c :: t => n.isPrefixOf (c :: t) || listInfixOf n t

/-- Models the JavaScript expression h.includes(n). -/
def strContains (h n : String) : Bool := listInfixOf n.toList h.toList

/-- ASCII lower-casing of one character; the case folding performed by the i
flag of the redaction regexes, whose letters are all ASCII. -/
def charLower (c : Char) : Char :=
  if 'A' ≤ c ∧ c ≤ 'Z' then Char.ofNat (c.toNat + 32) else c

/-- ASCII lower-casing of a string. -/
def strLower (s : String) : String := String.mk (s.toList.map charLower)

/-- Case-insensitive containment: models testing a key against a case-insensitive
regular expression whose pattern pat is given in lower case. -/
def ciContains (k pat : String) : Bool := strContains (strLower k) pat

/-- JavaScript runtime values restricted to the JSON fragment handled by the
client (bodies are parsed with JSON.parse; numbers are modelled as integers). -/
inductive Js where
  | null : Js
  | bool (b : Bool) : Js
  | num (n : Int) : Js
  | str (s : String) : Js
  | arr (elems : List Js) : Js
  | obj (fields : List (String × Js)) : Js

/-- JavaScript truthiness on the modelled value fragment. -/
def Js.truthy : Js → Bool
  | .null => false
  | .bool b => b
  | .num n => n != 0
  | .str s => s != ""
  | .arr _ => true
  | .obj _ => true

/-- Tests for the JavaScript null value. -/
def Js.isNull : Js → Bool
  | .null => true
  | _ => false

/-- Property lookup on a string-keyed object modelled as an association list:
the value at the first entry with the given key, as in a JS object whose keys
are unique. -/
def klookup {α : Type} (l : List (String × α)) (k : String) : Option α :=
  (l.find? (fun e => e.1 == k)).map (fun e => e.2)

/-- Property lookup on a JavaScript object. -/
def olookup (o : List (String × Js)) (k : String) : Option Js :=
  klookup o k

/-- Property assignment obj[k] = v on a string-keyed object whose key is known
to be present: replaces the value at every entry named k.  Shared shape of the
header and body assignment loops. -/
def assignKey {α : Type} (l : List (String × α)) (k : String) (v : α) :
    List (String × α) :=
  l.map (fun e => if e.1 == k then (e.1, v) else e)

/-- JavaScript property assignment obj[k] = v on an object modelled as an
association list: replaces the value at an existing key in place, otherwise
appends the new key at the end (JS object key-insertion order). -/
def oinsert (o : List (String × Js)) (k : String) (v : Js) : List (String × Js) :=
  if o.any (fun e => e.1 == k) then assignKey o k v
  else o ++ [(k, v)]

/-- The opening-brace character, by code point. -/
def lbrace : Char := Char.ofNat 123

/-- The closing-brace character, by code point. -/
def rbrace : Char := Char.ofNat 125

/-- JSON whitespace. -/
def isWs (c : Char) : Bool := [' ', '\t', '\n', '\r'].contains c

/-- Drops leading JSON whitespace. -/
def skipWs : List Char → List Char
  | [] => []
  | c :: t => if isWs c then skipWs t else c :: t

/-- Translates a JSON string escape character (the escapes the model supports). -/
def escChar (c : Char) : Option Char :=
  if c == 'n' then some '\n'
  else if c == 't' then some '\t'
  else if c == 'r' then some '\r'
  else if c == '"' || c == '\\' || c == '/' then some c
  else none

/-- Parses the body of a JSON string literal after the opening quote, returning
the decoded characters and the remainder after the closing quote. -/
def parseStringBody : List Char → Option (List Char × List Char)
  | [] => none
  | '"' :: t => some ([], t)
  | '\\' :: e :: t =>
    match escChar e with
    | some c => (parseStringBody t).map (fun r => (c :: r.1, r.2))
    | none => none
  | c :: t => (parseStringBody t).map (fun r => (c :: r.1, r.2))

/-- Splits a maximal run of decimal digits off the front of the input. -/
def parseDigits : List Char → List Char × List Char
  | [] => ([], [])
  | c :: t =>
    if c.isDigit then
      let r := parseDigits t
      (c :: r.1, r.2)
    else ([], c :: t)

/-- Numeric value of a digit run. -/
def digitsToNat (ds : List Char) : Nat :=
  ds.foldl (fun acc c => acc * 10 + (c.toNat - 48)) 0

/-- Parses a JSON integer literal (the numeric fragment used by the model). -/
def parseNumber : List Char → Option (Js × List Char)
  | '-' :: t =>
    match parseDigits t with
    | ([], _) => none
    | (ds, rest) => some (.num (-(digitsToNat ds : Int)), rest)
  | cs =>
    match parseDigits cs with
    | ([], _) => none
    | (ds, rest) => some (.num (digitsToNat ds), rest)

mutual

/-- Fuel-driven recursive-descent parser for a JSON value; models JSON.parse on
the fragment of JSON exercised by the client. -/
def parseVal : Nat → List Char → Option (Js × List Char)
  | 0, _ => none
  | fuel + 1, cs =>
    match skipWs cs with
    | 'n' :: 'u' :: 'l' :: 'l' :: t => some (.null, t)
    | 't' :: 'r' :: 'u' :: 'e' :: t => some (.bool true, t)
    | 'f' :: 'a' :: 'l' :: 's' :: 'e' :: t => some (.bool false, t)
    | '"' :: t => (parseStringBody t).map (fun r => (Js.str (String.mk r.1), r.2))
    | '[' :: t =>
      (match skipWs t with
       | ']' :: t2 => some (Js.arr [], t2)
       | t2 => parseElems fuel t2 [])
    | c :: t =>
      if c == lbrace then
        (match skipWs t with
         | c2 :: t2 => if c2 == rbrace then some (Js.obj [], t2) else parseMembers fuel (c2 :: t2) []
         | [] => none)
      else parseNumber (c :: t)
    | [] => none

/-- Parses the elements of a non-empty JSON array. -/
def parseElems : Nat → List Char → List Js → Option (Js × List Char)
  | 0, _, _ => none
  | fuel + 1, cs, acc =>
    match parseVal fuel cs with
    | none => none
    | some (v, rest) =>
      match skipWs rest with
      | ',' :: t => parseElems fuel t (acc ++ [v])
      | ']' :: t => some (Js.arr (acc ++ [v]), t)
      | _ => none

/-- Parses the members of a non-empty JSON object; duplicate keys overwrite in
place as JSON.parse does. -/
def parseMembers : Nat → List Char → List (String × Js) → Option (Js × List Char)
  | 0, _, _ => none
  | fuel + 1, cs, acc =>
    match skipWs cs with
    | '"' :: t =>
      match parseStringBody t with
      | none => none
      | some (kcs, rest) =>
        match skipWs rest with
        | ':' :: t2 =>
          match parseVal fuel t2 with
          | none => none
          | some (v, rest2) =>
            let acc2 := oinsert acc (String.mk kcs) v
            match skipWs rest2 with
            | ',' :: t3 => parseMembers fuel t3 acc2
            | c3 :: t3 => if c3 == rbrace then some (Js.obj acc2, t3) else none
            | [] => none
        | _ => none
    | _ => none

end

/-- Models JSON.parse on a whole input string: parses one value and requires
only whitespace to remain, as JSON.parse rejects trailing input. -/
def jsParse (s : String) : Option Js :=
  match parseVal (s.length + 2) s.toList with
  | some (v, rest) => if (skipWs rest).isEmpty then some v else none
  | none => none

/-- Header maps are modelled as association lists of name-value pairs, in JS
object key order. -/
abbrev HeadersM := List (String × String)

/-- Header lookup: the value at the first entry carrying the given name. -/
def hlookup (l : HeadersM) (k : String) : Option String :=
  klookup l k

/-- Models the JavaScript object spread expression placing low first and high
second: keys of low keep their position with values overridden by high where
present, and keys only in high are appended in order. -/
def mergeHeaders (low high : HeadersM) : HeadersM :=
  low.map (fun e => (e.1, (hlookup high e.1).getD e.2)) ++
    high.filter (fun e => (hlookup low e.1).isNone)

/-- Model of the RequestOptions object a caller may pass to a verb method, with
the fields processOptions touches.  For the json and form fields, none models an
absent key, some none a key present holding undefined, and some (some v) a key
holding the value v, since the composed options distinguish key presence. -/
structure ComposerOptions where
  headers : HeadersM := []
  isForm : Bool := false
  json : Option (Option Js) := none
  form : Option (Option Js) := none
  method : Option String := none

/-- Model of the transport-ready options produced by processOptions, after the
isForm flag has been stripped; the method is always set. -/
structure GotRequestOptions where
  headers : HeadersM := []
  json : Option (Option Js) := none
  form : Option (Option Js) := none
  method : String

/-- The test data !== undefined && data !== null from processOptions, over a
payload modelled as Option Js with none for undefined. -/
def dataPresent : Option Js → Bool
  | some v => !v.isNull
  | none => false

/-- Shallow embedding of HttpClient.processOptions: decides whether the payload
goes under the json or the form key (or neither), merges the header-generator
output on top of the per-call headers, strips isForm, and sets the method.
The header-generator callback is modelled by the header object it returns for
this request (none when no generator is configured). -/
def processOptions (headerFunc : Option HeadersM) (method : String)
    (data : Option Js) (options : Option ComposerOptions) : GotRequestOptions :=
  let o := options.getD {}
  let jsonOrForm : Option String :=
    if o.isForm then some "form"
    else if dataPresent data then some "json"
    else none
  { headers := mergeHeaders o.headers (headerFunc.getD [])
  , json := if jsonOrForm == some "json" then some data else o.json
  , form := if jsonOrForm == some "form" then some data else o.form
  , method := method }

/-- JavaScript truthiness of an optional string configuration field. -/
def truthyStr : Option String → Bool
  | some s => s != ""
  | none => false

/-- The base64 alphabet. -/
def b64Alphabet : List Char :=
  "ABCDEFGHIJKLMNOPQRSTUVWXYZabcdefghijklmnopqrstuvwxyz0123456789+/".toList

/-- Character of the base64 alphabet at the given index. -/
def b64c (n : Nat) : Char := b64Alphabet.getD n 'A'

/-- Base64-encodes a byte list three bytes at a time, padding with equals signs. -/
def base64Chunks : List Nat → List Char
  | [] => []
  | [a] =>
    let n := a * 65536
    [b64c (n / 262144), b64c (n / 4096 % 64), '=', '=']
  | [a, b] =>
    let n := a * 65536 + b * 256
    [b64c (n / 262144), b64c (n / 4096 % 64), b64c (n / 64 % 64), '=']
  | a :: b :: c :: t =>
    let n := a * 65536 + b * 256 + c
    b64c (n / 262144) :: b64c (n / 4096 % 64) :: b64c (n / 64 % 64) :: b64c (n % 64) ::
      base64Chunks t

/-- UTF-8 encoding of one character as byte values. -/
def utf8Bytes (c : Char) : List Nat :=
  let n := c.toNat
  if n < 128 then [n]
  else if n < 2048 then [192 + n / 64, 128 + n % 64]
  else if n < 65536 then [224 + n / 4096, 128 + n / 64 % 64, 128 + n % 64]
  else [240 + n / 262144, 128 + n / 4096 % 64, 128 + n / 64 % 64, 128 + n % 64]

/-- UTF-8 bytes of a string. -/
def strUTF8 (s : String) : List Nat :=
  s.toList.foldr (fun c acc => utf8Bytes c ++ acc) []

/-- Models Buffer.from(s).toString with base64 encoding over the UTF-8 bytes. -/
def base64encode (s : String) : String :=
  String.mk (base64Chunks (strUTF8 s))

/-- Model of HttpClientConfig from interfaces.ts. -/
structure HttpClientConfig where
  basicAuthUserName : Option String := none
  basicAuthPassword : Option String := none
  bearerToken : Option String := none

/-- The Authorization header value computed by the HttpClient constructor:
basic auth when both fields are truthy, else a bearer token when truthy. -/
def authHeaderValue (cfg : HttpClientConfig) : Option String :=
  if truthyStr cfg.basicAuthUserName && truthyStr cfg.basicAuthPassword then
    some ("Basic " ++
      base64encode ((cfg.basicAuthUserName.getD "") ++ ":" ++ (cfg.basicAuthPassword.getD "")))
  else if truthyStr cfg.bearerToken then
    some ("Bearer " ++ (cfg.bearerToken.getD ""))
  else none

/-- The construction-time default headers: the headers given in
initParams.options, with the computed Authorization header merged on top by
addToHeader. -/
def constructorHeaders (initHeaders : HeadersM) (cfg : HttpClientConfig) : HeadersM :=
  match authHeaderValue cfg with
  | some v => mergeHeaders initHeaders [("Authorization", v)]
  | none => initHeaders

/-- The headers the transport sees for one request: got.extend merges the
construction-time default headers under the per-request headers produced by
processOptions, with per-request values winning key by key. -/
def effectiveRequestHeaders (initHeaders : HeadersM) (cfg : HttpClientConfig)
    (headerFunc : Option HeadersM) (options : Option ComposerOptions)
    (method : String) (data : Option Js) : HeadersM :=
  mergeHeaders (constructorHeaders initHeaders cfg)
    (processOptions headerFunc method data options).headers

/-- The statusCode slot of a RequestException holds an HTTP status number or a
transport error-code string, matching the TS type string | number. -/
inductive StrOrNat where
  | str (s : String)
  | num (n : Nat)
deriving DecidableEq

/-- The parts of a got response the error classifier reads: the status code, the
content-type header, and the body (some s when the body is a string, none when
it is absent or not a string). -/
structure HttpResponseM where
  statusCode : Nat
  contentType : Option String := none
  body : Option String := none
deriving DecidableEq

/-- The parts of a got error object the classifier and loggers read.  HTTPError,
CancelError and other Error instances share this shape; got 12 always sets a
string code on its errors (for CancelError the string ERR_CANCELED), while a
plain Error may have no code. -/
structure TransportError where
  message : String
  stack : Option String := none
  code : Option StrOrNat := none
  response : Option HttpResponseM := none
deriving DecidableEq

/-- The value caught by the catch block of requestJson: an HTTPError, a
CancelError, some other Error instance (transport errors that are neither, and
the SyntaxError from JSON.parse), or a thrown non-Error value. -/
inductive CaughtError where
  | httpErr (e : TransportError)
  | cancelErr (e : TransportError)
  | otherErr (e : TransportError)
  | nonError (v : Js)

/-- Model of the RequestException class from http-client.ts. -/
structure RequestException where
  message : String
  statusCode : Option StrOrNat := none
  stack : Option String := none
  responseBody : Option Js := none
  innerError : TransportError

/-- Model of the ProblemDetailsError class; its base holds the RequestException
fields set by the super call (message and stack from the inner error, no
responseBody).  The source field named instance is a Lean keyword and is
rendered instanceUri here. -/
structure ProblemDetailsError where
  base : RequestException
  type : Js
  title : Js
  detail : Option Js := none
  instanceUri : Option Js := none
  extensions : List (String × Js) := []

/-- What reaches the caller when a call fails: one of the two public exception
types, or (when a non-Error value was thrown) that value rethrown unchanged. -/
inductive Thrown where
  | reqEx (e : RequestException)
  | problem (p : ProblemDetailsError)
  | raw (v : Js)

/-- Whether a thrown value is one of the two public exception types. -/
def Thrown.isPublicException : Thrown → Bool
  | .reqEx _ => true
  | .problem _ => true
  | .raw _ => false

/-- Whether a thrown value is a ProblemDetailsError. -/
def Thrown.isProblem : Thrown → Bool
  | .problem _ => true
  | _ => false

/-- JavaScript template-string interpolation of a possibly-undefined value, as
in the message prefix built from the prefixUrl: undefined prints as the string
undefined. -/
def optStr : Option String → String
  | some s => s
  | none => "undefined"

/-- The message of a classifier-built RequestException: the prefix URL and the
path, then the original error message. -/
def mkMessage (prefixUrl : Option String) (path msg : String) : String :=
  optStr prefixUrl ++ "/" ++ path ++ " " ++ msg

/-- The expression error.response?.statusCode ?? error.code from
logAndCreateError: the HTTP status when a response exists, else the transport
error code. -/
def codeVal (e : TransportError) : Option StrOrNat :=
  match e.response with
  | some r => some (.num r.statusCode)
  | none => e.code

/-- The plain RequestException built when classification does not produce a more
specific exception. -/
def genericReqEx (prefixUrl : Option String) (path : String) (code : Option StrOrNat)
    (e : TransportError) : RequestException :=
  { message := mkMessage prefixUrl path e.message
  , statusCode := code
  , stack := e.stack
  , responseBody := none
  , innerError := e }

/-- The four field names the problem-details destructuring removes from the body
before collecting the rest as extensions. -/
def pdReservedKeys : List String := ["detail", "instance", "title", "type"]

/-- JavaScript truthiness of a possibly-undefined value. -/
def jsTruthyOpt : Option Js → Bool
  | some v => v.truthy
  | none => false

/-- Shallow embedding of the HTTPError/CancelError arm of
HttpClient.logAndCreateError: reads the content type, attempts JSON parsing of a
string body (a parse failure is swallowed), prefers the plain application/json
classification, and otherwise builds a ProblemDetailsError when the parsed body
is an object with truthy type and title fields.  Destructuring a non-object
body either yields undefined fields or throws inside the try block, so it falls
through to the generic RequestException either way. -/
def classifyHttpOrCancel (prefixUrl : Option String) (path : String)
    (e : TransportError) : Thrown :=
  let code := codeVal e
  let ct := (e.response.bind (fun r => r.contentType)).getD ""
  match e.response.bind (fun r => r.body),
      strContains ct "application/problem+json" || strContains ct "application/json" with
  | some s, true =>
    match jsParse s with
    | some bodyJs =>
      if strContains ct "application/json" then
        .reqEx { message := mkMessage prefixUrl path e.message
               , statusCode := code
               , stack := e.stack
               , responseBody := some bodyJs
               , innerError := e }
      else
        match bodyJs with
        | .obj o =>
          let ty := olookup o "type"
          let ti := olookup o "title"
          if jsTruthyOpt ty && jsTruthyOpt ti then
            .problem
              { base := { message := e.message
                        , statusCode := code
                        , stack := e.stack
                        , responseBody := none
                        , innerError := e }
              , type := ty.getD .null
              , title := ti.getD .null
              , detail := olookup o "detail"
              , instanceUri := olookup o "instance"
              , extensions := o.filter (fun kv => !(pdReservedKeys.contains kv.1)) }
          else .reqEx (genericReqEx prefixUrl path code e)
        | _ => .reqEx (genericReqEx prefixUrl path code e)
    | none => .reqEx (genericReqEx prefixUrl path code e)
  | _, _ => .reqEx (genericReqEx prefixUrl path code e)

/-- Shallow embedding of HttpClient.logAndCreateError.  The first component
counts the calls to the configured logger failure path (logFailure), which the
source invokes exactly when the caught error is an HTTPError or a CancelError;
the second component is the value the caller of requestJson sees thrown. -/
def logAndCreateError (prefixUrl : Option String) (path : String) :
    CaughtError → Nat × Thrown
  | .httpErr e => (1, classifyHttpOrCancel prefixUrl path e)
  | .cancelErr e => (1, classifyHttpOrCancel prefixUrl path e)
  | .otherErr e => (0, .reqEx (genericReqEx prefixUrl path none e))
  | .nonError v => (0, .raw v)

/-- The leading-slash stripping applied by requestJson before dispatch: drops
the first character exactly when it is a slash. -/
def sanitizePath (path : String) : String :=
  match path.toList with
  | '/' :: t => String.mk t
  | _ => path

/-- The outcome of awaiting the transport call inside requestJson: a 2xx
response whose body string is available, or a thrown error. -/
inductive FetchOutcome where
  | success (body : String)
  | failure (err : CaughtError)

/-- Observable result of one verb call: the parsed value returned (on success),
the value thrown (on failure), and how many times the configured logger success
and failure paths ran during the call. -/
structure CallResult where
  returned : Option Js := none
  thrown : Option Thrown := none
  logSuccesses : Nat := 0
  logFailures : Nat := 0

/-- Models the SyntaxError raised by JSON.parse on a malformed body: an Error
instance that is neither an HTTPError nor a CancelError, with no response and no
transport code. -/
def jsonSyntaxError (body : String) : TransportError :=
  { message := "Unexpected token in JSON: " ++ body
  , stack := none
  , code := none
  , response := none }

/-- Shallow embedding of HttpClient.requestJson, the shared pipeline of
get/post/put/patch/delete: strips one leading slash, and on success logs via
logSuccess before parsing the body (so a malformed 2xx body still logs one
success and then flows through the same catch path), while on failure it
delegates to logAndCreateError and throws its result. -/
def requestJson (prefixUrl : Option String) (path : String)
    (outcome : FetchOutcome) : CallResult :=
  let sanitized := sanitizePath path
  match outcome with
  | .success body =>
    match jsParse body with
    | some j => { returned := some j, logSuccesses := 1 }
    | none =>
      let lr := logAndCreateError prefixUrl sanitized (.otherErr (jsonSyntaxError body))
      { thrown := some lr.2, logSuccesses := 1, logFailures := lr.1 }
  | .failure err =>
    let lr := logAndCreateError prefixUrl sanitized err
    { thrown := some lr.2, logFailures := lr.1 }

/-- JavaScript objects carrying JSON values, as association lists. -/
abbrev JsObj := List (String × Js)

/-- Model of a RequestOptions object as the loggers and redaction see it.  The
headers slot distinguishes an absent (undefined) headers object; bodies are
top-level JSON objects, matching the Record types of the got json and form
options. -/
structure LogOptions where
  headers : Option HeadersM := none
  json : Option JsObj := none
  form : Option JsObj := none
  method : Option String := none

/-- The fixed redaction marker. -/
def redactedMarker : String := "<redacted>"

/-- The header-name patterns of genericLogRedactionKeyPatterns from
log-redaction.ts: the single case-insensitive unanchored regex authorization,
rendered as case-insensitive containment. -/
def headerPatterns : List (String → Bool) :=
  [fun k => ciContains k "authorization"]

/-- The regex pass(word)? with the i flag: since password contains pass, the
test is containment of pass. -/
def patPass (k : String) : Bool := ciContains k "pass"

/-- The regex email with the i flag. -/
def patEmail (k : String) : Bool := ciContains k "email"

/-- The regex token with the i flag. -/
def patToken (k : String) : Bool := ciContains k "token"

/-- The regex secret with the i flag. -/
def patSecret (k : String) : Bool := ciContains k "secret"

/-- The regex client_?id with the i flag: containment of clientid or client_id. -/
def patClientId (k : String) : Bool := ciContains k "clientid" || ciContains k "client_id"

/-- The regex client_?secret with the i flag. -/
def patClientSecret (k : String) : Bool :=
  ciContains k "clientsecret" || ciContains k "client_secret"

/-- The regex user(name)? with the i flag: containment of user. -/
def patUser (k : String) : Bool := ciContains k "user"

/-- The body-field patterns of genericLogRedactionKeyPatterns, in source order. -/
def propPatterns : List (String → Bool) :=
  [patPass, patEmail, patToken, patSecret, patClientId, patClientSecret, patUser]

/-- The double loop shared by redactSensitiveHeaders and redactSensitiveProps:
for each key of the object, for each pattern, assign the marker when the pattern
matches the key. -/
def redactLoop {α : Type} (patterns : List (String → Bool)) (marker : α)
    (l : List (String × α)) : List (String × α) :=
  (l.map (fun e => e.1)).foldl
    (fun acc k =>
      patterns.foldl
        (fun acc2 p => if p k then assignKey acc2 k marker else acc2) acc)
    l

/-- The loop of redactSensitiveHeaders over the headers object. -/
def redactHeaderList (hs : HeadersM) : HeadersM :=
  redactLoop headerPatterns redactedMarker hs

/-- The loop of redactSensitiveProps over the chosen body object. -/
def redactObj (o : JsObj) : JsObj :=
  redactLoop propPatterns (Js.str redactedMarker) o

/-- Shallow embedding of redactSensitiveHeaders from loggers.ts: returns
unchanged when the headers object is undefined. -/
def redactSensitiveHeaders (o : LogOptions) : LogOptions :=
  match o.headers with
  | none => o
  | some hs => { o with headers := some (redactHeaderList hs) }

/-- Shallow embedding of redactSensitiveProps from loggers.ts: the expression
options.json ?? options.form selects the json body when present, else the form
body, and the assignments write through that alias, so only the selected body is
changed. -/
def redactSensitiveProps (o : LogOptions) : LogOptions :=
  match o.json with
  | some b => { o with json := some (redactObj b) }
  | none =>
    match o.form with
    | some b => { o with form := some (redactObj b) }
    | none => o

/-- Models the deep copy taken by redact (the fast-copy dependency).  Values in
the embedding are immutable, so the copy is the identity; the original object is
unchanged by construction, which is exactly what the deep copy guarantees in the
source. -/
def fastCopy (o : LogOptions) : LogOptions := o

/-- Shallow embedding of redact from loggers.ts: deep-copies the options, then
redacts headers and body props on the copy. -/
def redact (o : LogOptions) : LogOptions :=
  redactSensitiveProps (redactSensitiveHeaders (fastCopy o))

/-- State threaded through the CachedClient model: the node-cache store (route
to last stored value) and the number of invocations of the underlying client
get. -/
structure CacheState where
  entries : JsObj := []
  calls : Nat := 0

/-- NodeCache.get on the modelled store. -/
def cacheGet (s : CacheState) (route : String) : Option Js :=
  olookup s.entries route

/-- Shallow embedding of CachedClient.get (the private method behind get and
getNoCache): unless noCache is set, a truthy cached value is returned without
calling through (the source tests the cached value with a bare if, so a stored
falsy value does not count as a hit); otherwise the underlying executor runs,
its result is stored under the route key, and returned.  The executor is
modelled as a function of the invocation index. -/
def cachedClientGet (exec : Nat → Js) (route : String) (noCache : Bool)
    (s : CacheState) : Js × CacheState :=
  let hit : Option Js :=
    if noCache then none
    else
      match cacheGet s route with
      | some v => if v.truthy then some v else none
      | none => none
  match hit with
  | some v => (v, s)
  | none =>
    let result := exec s.calls
    (result, { entries := oinsert s.entries route result, calls := s.calls + 1 })


/-- The statusCode field of a thrown value, read through the RequestException
base where present. -/
def Thrown.statusCodeOf : Thrown → Option StrOrNat
  | .reqEx r => r.statusCode
  | .problem pd => pd.base.statusCode
  | .raw _ => none

/-- The message field of a thrown value, read through the RequestException base
where present. -/
def Thrown.messageOf : Thrown → String
  | .reqEx r => r.message
  | .problem pd => pd.base.message
  | .raw _ => ""

/-- The parsed body attached to a classified plain-JSON failure: some parsed
value exactly when the failing response has a string body, its content type
contains application/json, and the body parses; none otherwise.  Characterizes
the responseBody slot of every RequestException built by the classifier. -/
def plainJsonBody (e : TransportError) : Option Js :=
  match e.response with
  | some r =>
    match r.body, strContains (r.contentType.getD "") "application/json" with
    | some s, true => jsParse s
    | _, _ => none
  | none => none

theorem klookup_nil {α : Type} (k : String) : klookup ([] : List (String × α)) k = none := rfl

theorem klookup_cons {α : Type} (e : String × α) (t : List (String × α)) (k : String) :
    klookup (e :: t) k = if e.1 == k then some e.2 else klookup t k := by
  by_cases h : e.1 == k
  · simp [klookup, List.find?_cons_of_pos, h]
  · simp [klookup, List.find?_cons_of_neg, h]

theorem klookup_append {α : Type} (a b : List (String × α)) (k : String) :
    klookup (a ++ b) k = match klookup a k with
      | some v => some v
      | none => klookup b k := by
  induction a with
  | nil => simp [klookup_nil]
  | cons e t ih =>
    rw [List.cons_append, klookup_cons, klookup_cons]
    by_cases h : e.1 == k
    · simp [h]
    · simp [h, ih]

theorem klookup_map_override (low high : HeadersM) (k : String) :
    klookup (low.map (fun e => (e.1, (hlookup high e.1).getD e.2))) k
      = (klookup low k).map (fun v => (hlookup high k).getD v) := by
  induction low with
  | nil => simp [klookup_nil]
  | cons e t ih =>
    rw [List.map_cons, klookup_cons, klookup_cons]
    by_cases h : e.1 == k
    · have hk : e.1 = k := by simpa using h
      simp [h, hk]
    · simp [h, ih]

theorem klookup_filter_miss (low high : HeadersM) (k : String) :
    klookup (high.filter (fun e => (hlookup low e.1).isNone)) k
      = if (hlookup low k).isNone then klookup high k else none := by
  induction high with
  | nil => simp [klookup_nil]
  | cons e t ih =>
    rw [List.filter_cons]
    by_cases hp : (hlookup low e.1).isNone
    · rw [if_pos (by simpa using hp)]
      rw [klookup_cons, klookup_cons]
      by_cases h : e.1 == k
      · have hk : e.1 = k := by simpa using h
        rw [hk] at hp
        simp [h, hp]
      · simp [h, ih]
    · rw [if_neg (by simpa using hp)]
      rw [klookup_cons]
      by_cases h : e.1 == k
      · have hk : e.1 = k := by simpa using h
        rw [hk] at hp
        simp [h, ih, hp]
      · simp [h, ih]

theorem hlookup_merge (low high : HeadersM) (k : String) :
    hlookup (mergeHeaders low high) k
      = match hlookup high k with
        | some v => some v
        | none => hlookup low k := by
  show klookup (mergeHeaders low high) k = _
  unfold mergeHeaders
  rw [klookup_append, klookup_map_override, klookup_filter_miss]
  cases hl : klookup low k <;> cases hh : klookup high k <;>
    simp [hlookup, hl, hh]


theorem assignKey_assignKey {α : Type} (l : List (String × α)) (k : String) (m : α) :
    assignKey (assignKey l k m) k m = assignKey l k m := by
  simp only [assignKey, List.map_map]
  apply List.map_congr_left
  intro e _
  by_cases h : e.1 = k <;> simp [h]

theorem foldl_patterns {α : Type} (ps : List (String → Bool)) (k : String) (m : α)
    (acc : List (String × α)) :
    ps.foldl (fun a p => if p k then assignKey a k m else a) acc
      = if ps.any (fun p => p k) then assignKey acc k m else acc := by
  induction ps generalizing acc with
  | nil => simp
  | cons p t ih =>
    simp only [List.foldl_cons, List.any_cons]
    by_cases h : p k
    · rw [if_pos h, ih]
      by_cases ht : t.any (fun p => p k) <;> simp [h, ht, assignKey_assignKey]
    · simp [h, ih]

theorem foldl_assign_keys {α : Type} (q : String → Bool) (m : α) :
    ∀ (ks : List String) (acc : List (String × α)),
      ks.foldl (fun a k => if q k then assignKey a k m else a) acc
        = acc.map (fun e => if q e.1 && decide (e.1 ∈ ks) then (e.1, m) else e) := by
  intro ks
  induction ks with
  | nil =>
    intro acc
    simp
  | cons k t ih =>
    intro acc
    simp only [List.foldl_cons]
    by_cases h : q k
    · rw [if_pos h, ih, assignKey, List.map_map]
      apply List.map_congr_left
      intro e _
      by_cases hek : e.1 = k
      · simp [Function.comp, hek, h, List.mem_cons]
      · simp [Function.comp, hek, List.mem_cons]
    · rw [if_neg h, ih]
      apply List.map_congr_left
      intro e _
      by_cases hek : e.1 = k
      · simp [hek, h, List.mem_cons]
      · simp [hek, List.mem_cons]

theorem redactLoop_eq {α : Type} (ps : List (String → Bool)) (m : α)
    (l : List (String × α)) :
    redactLoop ps m l
      = l.map (fun e => if ps.any (fun p => p e.1) then (e.1, m) else e) := by
  unfold redactLoop
  have hstep : (fun (acc : List (String × α)) (k : String) =>
        ps.foldl (fun acc2 p => if p k then assignKey acc2 k m else acc2) acc)
      = fun acc k => if ps.any (fun p => p k) then assignKey acc k m else acc := by
    funext acc k
    exact foldl_patterns ps k m acc
  rw [hstep, foldl_assign_keys]
  apply List.map_congr_left
  intro e he
  have hmem : e.1 ∈ l.map (fun e => e.1) := List.mem_map_of_mem _ he
  simp [hmem]

theorem redactLoop_idem {α : Type} (ps : List (String → Bool)) (m : α)
    (l : List (String × α)) :
    redactLoop ps m (redactLoop ps m l) = redactLoop ps m l := by
  rw [redactLoop_eq, redactLoop_eq, List.map_map]
  apply List.map_congr_left
  intro e _
  by_cases h : ps.any (fun p => p e.1) <;> simp [Function.comp, h]


theorem klookup_assignKey_self {α : Type} (l : List (String × α)) (k : String) (v : α)
    (h : l.any (fun e => e.1 == k) = true) :
    klookup (assignKey l k v) k = some v := by
  induction l with
  | nil => simp at h
  | cons e t ih =>
    have hcons : assignKey (e :: t) k v
        = (if e.1 == k then (e.1, v) else e) :: assignKey t k v := by
      simp [assignKey]
    rw [hcons, klookup_cons]
    by_cases he : e.1 == k
    · rw [if_pos he]
      simp [he]
    · rw [if_neg he, if_neg he]
      simp only [List.any_cons, he, Bool.false_or] at h
      exact ih h

theorem klookup_eq_none_of_not_any {α : Type} (l : List (String × α)) (k : String)
    (h : l.any (fun e => e.1 == k) = false) :
    klookup l k = none := by
  induction l with
  | nil => rfl
  | cons e t ih =>
    simp only [List.any_cons, Bool.or_eq_false_iff] at h
    rw [klookup_cons]
    simp [h.1, ih h.2]

theorem olookup_oinsert_self (o : JsObj) (k : String) (v : Js) :
    olookup (oinsert o k v) k = some v := by
  unfold oinsert olookup
  by_cases h : o.any (fun e => e.1 == k)
  · rw [if_pos h]
    exact klookup_assignKey_self o k v h
  · rw [if_neg h]
    rw [klookup_append]
    rw [klookup_eq_none_of_not_any o k (Bool.eq_false_iff.mpr h)]
    simp [klookup_cons]

theorem classify_isPublic (p : Option String) (path : String) (e : TransportError) :
    (classifyHttpOrCancel p path e).isPublicException = true := by
  unfold classifyHttpOrCancel
  dsimp only
  repeat' split
  all_goals rfl



theorem redact_headers_eq (o : LogOptions) :
    (redact o).headers = o.headers.map redactHeaderList := by
  cases o with
  | mk h j f m =>
    cases h <;> cases j <;> cases f <;>
      simp [redact, fastCopy, redactSensitiveHeaders, redactSensitiveProps]

theorem redact_json_eq (o : LogOptions) :
    (redact o).json = o.json.map redactObj := by
  cases o with
  | mk h j f m =>
    cases h <;> cases j <;> cases f <;>
      simp [redact, fastCopy, redactSensitiveHeaders, redactSensitiveProps]

theorem redact_form_eq (o : LogOptions) :
    (redact o).form = if o.json.isSome then o.form else o.form.map redactObj := by
  cases o with
  | mk h j f m =>
    cases h <;> cases j <;> cases f <;>
      simp [redact, fastCopy, redactSensitiveHeaders, redactSensitiveProps]

theorem redact_method_eq (o : LogOptions) :
    (redact o).method = o.method := by
  cases o with
  | mk h j f m =>
    cases h <;> cases j <;> cases f <;>
      simp [redact, fastCopy, redactSensitiveHeaders, redactSensitiveProps]

/-- Claim C7: redact never mutates its argument and is idempotent.  In this pure
embedding the deep copy taken by redact (fastCopy, modelling the fast-copy
dependency) makes non-mutation hold by construction, since redact is a function
of an immutable value; the substantive half proved here is idempotence: for
every request-options object, redacting twice equals redacting once. -/
theorem C7_redact_idempotent (o : LogOptions) : redact (redact o) = redact o := by
  cases o with
  | mk h j f m =>
    cases h <;> cases j <;> cases f <;>
      simp [redact, fastCopy, redactSensitiveHeaders, redactSensitiveProps,
        redactHeaderList, redactObj, redactLoop_idem]


/-- Claim C8: for every options object in which at most one of the json and form
bodies is populated (the data-model invariant of the spec), redact replaces with
the fixed redaction marker exactly the value of every top-level header key
matching authorization case-insensitively and the value of every top-level body
key matching one of the documented sensitive patterns; every other key keeps its
original value, and values are never recursed into, so an object nested under a
non-matching key keeps its inner sensitive fields verbatim. -/
theorem C8_redaction_coverage (o : LogOptions)
    (hOne : ¬(o.json.isSome = true ∧ o.form.isSome = true)) :
    (redact o).headers = o.headers.map (fun hs =>
        hs.map (fun e =>
          if headerPatterns.any (fun p => p e.1) then (e.1, redactedMarker) else e)) ∧
    (redact o).json = o.json.map (fun b =>
        b.map (fun e =>
          if propPatterns.any (fun p => p e.1) then (e.1, Js.str redactedMarker) else e)) ∧
    (redact o).form = o.form.map (fun b =>
        b.map (fun e =>
          if propPatterns.any (fun p => p e.1) then (e.1, Js.str redactedMarker) else e)) ∧
    (redact o).method = o.method := by
  refine ⟨?_, ?_, ?_, redact_method_eq o⟩
  · rw [redact_headers_eq]
    cases o.headers <;> simp [redactHeaderList, redactLoop_eq]
  · rw [redact_json_eq]
    cases o.json <;> simp [redactObj, redactLoop_eq]
  · rw [redact_form_eq]
    cases hj : o.json with
    | some b =>
      cases hf : o.form with
      | some c => exact absurd ⟨by simp [hj], by simp [hf]⟩ hOne
      | none => simp [hj]
    | none => cases o.form <;> simp [hj, redactObj, redactLoop_eq]

theorem C8_witness :
    (redact { headers := some [("Authorization", "a"), ("x-request-id", "r")]
            , json := some [("password", Js.str "p"), ("other", Js.str "x"),
                            ("wrapper", Js.obj [("password", Js.str "q")])]
            , method := some "POST" } : LogOptions).headers
        = some [("Authorization", redactedMarker), ("x-request-id", "r")] ∧
    (redact { headers := some [("Authorization", "a"), ("x-request-id", "r")]
            , json := some [("password", Js.str "p"), ("other", Js.str "x"),
                            ("wrapper", Js.obj [("password", Js.str "q")])]
            , method := some "POST" } : LogOptions).json
        = some [("password", Js.str redactedMarker), ("other", Js.str "x"),
                ("wrapper", Js.obj [("password", Js.str "q")])] := by
  have h := C8_redaction_coverage
    { headers := some [("Authorization", "a"), ("x-request-id", "r")]
    , json := some [("password", Js.str "p"), ("other", Js.str "x"),
                    ("wrapper", Js.obj [("password", Js.str "q")])]
    , method := some "POST" } (by simp)
  refine ⟨?_, ?_⟩
  · rw [h.1]
    rfl
  · rw [h.2.1]
    rfl

/-- Claim C10 (implicit): when an options object has both a json body and a form
body populated, redact inspects only the json body, because the source
expression options.json with the nullish-coalescing fallback to options.form
selects the json body; the form body, sensitive keys included, is returned
completely unchanged. -/
theorem C10_form_untouched (o : LogOptions) (jb fb : JsObj)
    (hj : o.json = some jb) (hf : o.form = some fb) :
    (redact o).form = some fb ∧
    (redact o).json = some (jb.map (fun e =>
      if propPatterns.any (fun p => p e.1) then (e.1, Js.str redactedMarker) else e)) := by
  constructor
  · rw [redact_form_eq, hj, hf]
    rfl
  · rw [redact_json_eq, hj]
    simp [redactObj, redactLoop_eq]

theorem C10_witness :
    (redact { json := some [("a", Js.str "1")]
            , form := some [("password", Js.str "p")] } : LogOptions).form
        = some [("password", Js.str "p")] ∧
    (redact { json := some [("a", Js.str "1")]
            , form := some [("password", Js.str "p")] } : LogOptions).json
        = some [("a", Js.str "1")] := by
  have h := C10_form_untouched
    { json := some [("a", Js.str "1")], form := some [("password", Js.str "p")] }
    [("a", Js.str "1")] [("password", Js.str "p")] rfl rfl
  refine ⟨h.1, ?_⟩
  rw [h.2]
  rfl



/-- Claim C4: header precedence in the composed request is low-to-high
construction-time default headers (the initParams.options headers with the
computed Authorization header), then per-call explicit headers, then the
header-generator output, stated as a lookup equation for every key; and on the
concrete example of the spec, defaults A=1 with per-call A=2, B=3 and generator
A=4 compose to A=4, B=3. -/
theorem C4_header_precedence :
    (∀ (initHeaders : HeadersM) (cfg : HttpClientConfig) (headerFunc : Option HeadersM)
        (options : Option ComposerOptions) (method : String) (data : Option Js) (k : String),
      hlookup (effectiveRequestHeaders initHeaders cfg headerFunc options method data) k
        = match hlookup (headerFunc.getD []) k with
          | some v => some v
          | none =>
            match hlookup (options.getD {}).headers k with
            | some v => some v
            | none => hlookup (constructorHeaders initHeaders cfg) k) ∧
    effectiveRequestHeaders [("A", "1")] {} (some [("A", "4")])
        (some { headers := [("A", "2"), ("B", "3")] }) "GET" none
      = [("A", "4"), ("B", "3")] := by
  constructor
  · intro initHeaders cfg headerFunc options method data k
    unfold effectiveRequestHeaders processOptions
    rw [hlookup_merge, hlookup_merge]
    cases hg : hlookup (headerFunc.getD []) k <;>
      cases hc : hlookup (options.getD {}).headers k <;>
        simp [hg, hc]
  · decide

/-- Claim C5 as amended: if the caller options set the isForm flag the composed
options carry the payload under the form key; else if the payload is defined and
non-null it is carried under the json key; else the composer adds neither key,
and in particular a call with no payload and no options (the plain GET and
DELETE calls) composes options with neither body key.  The amendment records
that a json or form field already present in the caller options passes through
unchanged instead of being removed, so the composed options are free of body
keys only when the caller options are; see the counterexample. -/
theorem C5_body_placement (headerFunc : Option HeadersM) (method : String)
    (data : Option Js) (options : Option ComposerOptions) :
    (match (options.getD {}).isForm, dataPresent data with
     | true, _ =>
       (processOptions headerFunc method data options).form = some data ∧
       (processOptions headerFunc method data options).json = (options.getD {}).json
     | false, true =>
       (processOptions headerFunc method data options).json = some data ∧
       (processOptions headerFunc method data options).form = (options.getD {}).form
     | false, false =>
       (processOptions headerFunc method data options).json = (options.getD {}).json ∧
       (processOptions headerFunc method data options).form = (options.getD {}).form) ∧
    (processOptions headerFunc method data options).method = method ∧
    ((processOptions headerFunc method none none).json = none ∧
     (processOptions headerFunc method none none).form = none) := by
  refine ⟨?_, ?_, ?_, ?_⟩
  · cases hF : (options.getD {}).isForm <;> cases hD : dataPresent data <;>
      simp [processOptions, hF, hD]
  · simp [processOptions]
  · simp [processOptions, dataPresent]
  · simp [processOptions, dataPresent]

theorem C5_counterexample :
    (processOptions none "GET" none (some { json := some (some (Js.str "x")) })).json
        = some (some (Js.str "x")) ∧
    ¬((processOptions none "GET" none (some { json := some (some (Js.str "x")) })).json
        = none) :=
  ⟨rfl, fun h => nomatch h⟩


/-- Claim C6 as amended: for every truthy cached value V, two sequential get
calls against an executor stubbed to return V on its first invocation both
return V with the executor invoked exactly once, and getNoCache always invokes
the executor again and refreshes the cache entry regardless of cache state.
The amendment restricts the cached value to truthy ones: the source tests the
cached value with a bare if, so a stored falsy value is treated as a miss; see
the counterexample. -/
theorem C6_cache_scenario (exec : Nat → Js) (route : String) (V : Js)
    (h0 : exec 0 = V) (hT : V.truthy = true) :
    (cachedClientGet exec route false {}).1 = V ∧
    (cachedClientGet exec route false (cachedClientGet exec route false {}).2).1 = V ∧
    (cachedClientGet exec route false (cachedClientGet exec route false {}).2).2.calls = 1 ∧
    (∀ s : CacheState,
      (cachedClientGet exec route true s).2.calls = s.calls + 1 ∧
      (cachedClientGet exec route true s).1 = exec s.calls ∧
      cacheGet (cachedClientGet exec route true s).2 route = some (exec s.calls)) := by
  have hmiss : (cachedClientGet exec route false {}).1 = exec 0 ∧
      (cachedClientGet exec route false {}).2
        = { entries := [(route, exec 0)], calls := 1 } := by
    constructor <;> simp [cachedClientGet, cacheGet, olookup, klookup, oinsert]
  refine ⟨hmiss.1.trans h0, ?_, ?_, ?_⟩
  · rw [hmiss.2]
    simp [cachedClientGet, cacheGet, olookup, klookup_cons, h0, hT]
  · rw [hmiss.2]
    simp [cachedClientGet, cacheGet, olookup, klookup_cons, h0, hT]
  · intro s
    refine ⟨by simp [cachedClientGet], by simp [cachedClientGet], ?_⟩
    simp only [cachedClientGet]
    exact olookup_oinsert_self s.entries route (exec s.calls)

theorem C6_witness :
    (cachedClientGet (fun n => if n == 0 then Js.str "V" else Js.null) "/route" false {}).1
        = Js.str "V" ∧
    (cachedClientGet (fun n => if n == 0 then Js.str "V" else Js.null) "/route" false
        (cachedClientGet (fun n => if n == 0 then Js.str "V" else Js.null) "/route" false {}).2).1
        = Js.str "V" ∧
    (cachedClientGet (fun n => if n == 0 then Js.str "V" else Js.null) "/route" false
        (cachedClientGet (fun n => if n == 0 then Js.str "V" else Js.null) "/route" false {}).2).2.calls
        = 1 := by
  have h := C6_cache_scenario (fun n => if n == 0 then Js.str "V" else Js.null) "/route"
    (Js.str "V") rfl rfl
  exact ⟨h.1, h.2.1, h.2.2.1⟩

theorem C6_counterexample :
    (cachedClientGet (fun n => if n == 0 then Js.bool false else Js.null) "/route" false {}).1
        = Js.bool false ∧
    (cachedClientGet (fun n => if n == 0 then Js.bool false else Js.null) "/route" false
        (cachedClientGet (fun n => if n == 0 then Js.bool false else Js.null) "/route" false {}).2).2.calls
        = 2 ∧
    ¬((cachedClientGet (fun n => if n == 0 then Js.bool false else Js.null) "/route" false
        (cachedClientGet (fun n => if n == 0 then Js.bool false else Js.null) "/route" false {}).2).2.calls
        = 1) := by
  exact ⟨rfl, rfl, by decide⟩



/-- Claim C3 as amended: a request aborted through the cancellation handle
surfaces as a CancelError with no response, and the classifier wraps it as a
RequestException whose statusCode field carries the transport error code of the
cancel error (got 12 sets the string ERR_CANCELED) rather than being left
unset; no HTTP status number is present since there is no response.  The
classification is the generic RequestException arm, logged exactly once. -/
theorem C3_cancellation (p : Option String) (path : String) (e : TransportError)
    (h : e.response = none) :
    logAndCreateError p path (.cancelErr e)
      = (1, .reqEx { message := mkMessage p path e.message
                   , statusCode := e.code
                   , stack := e.stack
                   , responseBody := none
                   , innerError := e }) := by
  simp [logAndCreateError, classifyHttpOrCancel, h, codeVal, genericReqEx]

theorem C3_witness :
    logAndCreateError (some "https://api.example") "slow"
        (.cancelErr { message := "Promise was canceled"
                    , stack := some "CancelError: Promise was canceled"
                    , code := some (.str "ERR_CANCELED")
                    , response := none })
      = (1, .reqEx { message := "https://api.example/slow Promise was canceled"
                   , statusCode := some (.str "ERR_CANCELED")
                   , stack := some "CancelError: Promise was canceled"
                   , responseBody := none
                   , innerError := { message := "Promise was canceled"
                                   , stack := some "CancelError: Promise was canceled"
                                   , code := some (.str "ERR_CANCELED")
                                   , response := none } }) := by
  have h := C3_cancellation (some "https://api.example") "slow"
    { message := "Promise was canceled"
    , stack := some "CancelError: Promise was canceled"
    , code := some (.str "ERR_CANCELED")
    , response := none } rfl
  rw [h]
  rfl

theorem C3_counterexample :
    Thrown.statusCodeOf
        (logAndCreateError (some "https://api.example") "slow"
          (.cancelErr { message := "Promise was canceled"
                      , stack := none
                      , code := some (.str "ERR_CANCELED")
                      , response := none })).2
      = some (.str "ERR_CANCELED") ∧
    ¬(Thrown.statusCodeOf
        (logAndCreateError (some "https://api.example") "slow"
          (.cancelErr { message := "Promise was canceled"
                      , stack := none
                      , code := some (.str "ERR_CANCELED")
                      , response := none })).2
      = none) := by
  exact ⟨by decide, by decide⟩


/-- Claim C2 as amended: for a failing call whose response content-type contains
application/problem+json and does not also contain application/json (the plain
JSON classification takes precedence when both substrings occur, which the
amendment adds; see the counterexample), and whose string body parses as a JSON
object, the thrown exception is a ProblemDetailsError with type, title, detail
and instance equal to the corresponding body fields and extensions exactly the
remaining fields, provided type and title are truthy; when their conjunction is
falsy the classification falls back to a plain RequestException, and a content
type without the problem+json marker never produces a ProblemDetailsError. -/
theorem C2_problem_details :
    (∀ (p : Option String) (path : String) (e : TransportError) (r : HttpResponseM)
        (ct s : String) (o : JsObj),
      e.response = some r → r.contentType = some ct →
      strContains ct "application/problem+json" = true →
      strContains ct "application/json" = false →
      r.body = some s → jsParse s = some (.obj o) →
      (jsTruthyOpt (olookup o "type") = true → jsTruthyOpt (olookup o "title") = true →
        classifyHttpOrCancel p path e
          = .problem { base := { message := e.message
                               , statusCode := some (.num r.statusCode)
                               , stack := e.stack
                               , responseBody := none
                               , innerError := e }
                     , type := (olookup o "type").getD .null
                     , title := (olookup o "title").getD .null
                     , detail := olookup o "detail"
                     , instanceUri := olookup o "instance"
                     , extensions := o.filter (fun kv => !(pdReservedKeys.contains kv.1)) }) ∧
      ((jsTruthyOpt (olookup o "type") && jsTruthyOpt (olookup o "title")) = false →
        classifyHttpOrCancel p path e
          = .reqEx (genericReqEx p path (some (.num r.statusCode)) e))) ∧
    (∀ (p : Option String) (path : String) (e : TransportError),
      strContains ((e.response.bind (fun r => r.contentType)).getD "")
          "application/problem+json" = false →
      (classifyHttpOrCancel p path e).isProblem = false) := by
  constructor
  · intro p path e r ct s o hr hct hpd hnj hb hp
    constructor
    · intro ht hti
      simp [classifyHttpOrCancel, hr, hct, hb, hp, hpd, hnj, codeVal, ht, hti]
    · intro hff
      simp [classifyHttpOrCancel, hr, hct, hb, hp, hpd, hnj, codeVal, genericReqEx, hff]
  · intro p path e hct
    unfold classifyHttpOrCancel
    dsimp only
    repeat' split
    all_goals first
      | rfl
      | simp_all [Thrown.isProblem]

theorem C2_witness :
    classifyHttpOrCancel (some "https://api.example") "orders"
        { message := "Response code 400 (Bad Request)"
        , stack := some "HTTPError"
        , code := some (.str "ERR_NON_2XX_3XX_RESPONSE")
        , response := some
            { statusCode := 400
            , contentType := some "application/problem+json"
            , body := some "\x7b\"type\":\"about:blank\",\"title\":\"Bad Request\",\"detail\":\"x is required\"\x7d" } }
      = .problem { base := { message := "Response code 400 (Bad Request)"
                           , statusCode := some (.num 400)
                           , stack := some "HTTPError"
                           , responseBody := none
                           , innerError :=
                               { message := "Response code 400 (Bad Request)"
                               , stack := some "HTTPError"
                               , code := some (.str "ERR_NON_2XX_3XX_RESPONSE")
                               , response := some
                                   { statusCode := 400
                                   , contentType := some "application/problem+json"
                                   , body := some "\x7b\"type\":\"about:blank\",\"title\":\"Bad Request\",\"detail\":\"x is required\"\x7d" } } }
                 , type := Js.str "about:blank"
                 , title := Js.str "Bad Request"
                 , detail := some (Js.str "x is required")
                 , instanceUri := none
                 , extensions := [] } := by
  have h := (C2_problem_details.1 (some "https://api.example") "orders"
      { message := "Response code 400 (Bad Request)"
      , stack := some "HTTPError"
      , code := some (.str "ERR_NON_2XX_3XX_RESPONSE")
      , response := some
          { statusCode := 400
          , contentType := some "application/problem+json"
          , body := some "\x7b\"type\":\"about:blank\",\"title\":\"Bad Request\",\"detail\":\"x is required\"\x7d" } }
      { statusCode := 400
      , contentType := some "application/problem+json"
      , body := some "\x7b\"type\":\"about:blank\",\"title\":\"Bad Request\",\"detail\":\"x is required\"\x7d" }
      "application/problem+json"
      "\x7b\"type\":\"about:blank\",\"title\":\"Bad Request\",\"detail\":\"x is required\"\x7d"
      [("type", Js.str "about:blank"), ("title", Js.str "Bad Request"),
       ("detail", Js.str "x is required")]
      rfl rfl (by decide) (by decide) rfl rfl).1 (by decide) (by decide)
  rw [h]
  rfl

theorem C2_counterexample :
    strContains "application/json, application/problem+json" "application/problem+json"
        = true ∧
    (match jsParse "\x7b\"type\":\"about:blank\",\"title\":\"Bad Request\"\x7d" with
     | some (Js.obj o) => jsTruthyOpt (olookup o "type") && jsTruthyOpt (olookup o "title")
     | _ => false) = true ∧
    (classifyHttpOrCancel (some "https://api.example") "p"
        { message := "Response code 400 (Bad Request)"
        , stack := none
        , code := some (.str "ERR_NON_2XX_3XX_RESPONSE")
        , response := some
            { statusCode := 400
            , contentType := some "application/json, application/problem+json"
            , body := some "\x7b\"type\":\"about:blank\",\"title\":\"Bad Request\"\x7d" } }).isProblem
      = false :=
  ⟨by decide, by decide, by decide⟩


/-- Claim C9 as amended: every RequestException built by the classifier carries
a message equal to the target URL (prefix URL, slash, path) followed by the
original error message, with no HTTP verb anywhere in it (the amendment drops
the claimed verb prefix; see the counterexample); it carries the status code
(response status if a response exists, else the transport error code), the
wrapped original error, its stack, and the parsed response body exactly when
the failure is a plain application/json failure with a parseable string body.
A ProblemDetailsError carries the inner error message without the URL prefix,
the same status code and inner error, and no responseBody.  Failures that are
plain Error values wrap into a RequestException with no status code. -/
theorem C9_exception_fields (p : Option String) (path : String) (e : TransportError) :
    (match classifyHttpOrCancel p path e with
     | .reqEx r =>
       r.message = mkMessage p path e.message ∧ r.statusCode = codeVal e ∧
       r.innerError = e ∧ r.responseBody = plainJsonBody e ∧ r.stack = e.stack
     | .problem pd =>
       pd.base.message = e.message ∧ pd.base.statusCode = codeVal e ∧
       pd.base.innerError = e ∧ pd.base.responseBody = none ∧ pd.base.stack = e.stack
     | .raw _ => False) ∧
    (logAndCreateError p path (.otherErr e)).2 = .reqEx (genericReqEx p path none e) := by
  refine ⟨?_, rfl⟩
  cases hresp : e.response with
  | none =>
    simp [classifyHttpOrCancel, hresp, plainJsonBody, genericReqEx, codeVal]
  | some r =>
    cases hbody : r.body with
    | none =>
      simp [classifyHttpOrCancel, hresp, hbody, plainJsonBody, genericReqEx, codeVal]
    | some s =>
      cases haj : strContains (r.contentType.getD "") "application/json" with
      | false =>
        cases hpj : strContains (r.contentType.getD "") "application/problem+json" with
        | false =>
          simp [classifyHttpOrCancel, hresp, hbody, hpj, haj, plainJsonBody,
            genericReqEx, codeVal]
        | true =>
          cases hJ : jsParse s with
          | none =>
            simp [classifyHttpOrCancel, hresp, hbody, hpj, haj, hJ, plainJsonBody,
              genericReqEx, codeVal]
          | some bodyJs =>
            cases bodyJs with
            | obj o =>
              by_cases htt :
                  (jsTruthyOpt (olookup o "type") && jsTruthyOpt (olookup o "title")) = true
              · simp [classifyHttpOrCancel, hresp, hbody, hpj, haj, hJ, plainJsonBody,
                  genericReqEx, codeVal, htt]
              · simp [classifyHttpOrCancel, hresp, hbody, hpj, haj, hJ, plainJsonBody,
                  genericReqEx, codeVal, htt]
            | null =>
              simp [classifyHttpOrCancel, hresp, hbody, hpj, haj, hJ, plainJsonBody,
                genericReqEx, codeVal]
            | bool b =>
              simp [classifyHttpOrCancel, hresp, hbody, hpj, haj, hJ, plainJsonBody,
                genericReqEx, codeVal]
            | num n =>
              simp [classifyHttpOrCancel, hresp, hbody, hpj, haj, hJ, plainJsonBody,
                genericReqEx, codeVal]
            | str s2 =>
              simp [classifyHttpOrCancel, hresp, hbody, hpj, haj, hJ, plainJsonBody,
                genericReqEx, codeVal]
            | arr a =>
              simp [classifyHttpOrCancel, hresp, hbody, hpj, haj, hJ, plainJsonBody,
                genericReqEx, codeVal]
      | true =>
        cases hJ : jsParse s with
        | none =>
          simp [classifyHttpOrCancel, hresp, hbody, haj, hJ, plainJsonBody,
            genericReqEx, codeVal]
        | some bodyJs =>
          simp [classifyHttpOrCancel, hresp, hbody, haj, hJ, plainJsonBody,
            genericReqEx, codeVal]

theorem C9_counterexample :
    Thrown.messageOf (classifyHttpOrCancel (some "https://api.example") "x"
        { message := "Response code 500 (Internal Server Error)"
        , stack := none
        , code := some (.str "ERR_NON_2XX_3XX_RESPONSE")
        , response := some { statusCode := 500
                           , contentType := some "text/plain"
                           , body := some "oops" } })
      = "https://api.example/x Response code 500 (Internal Server Error)" ∧
    strContains (Thrown.messageOf (classifyHttpOrCancel (some "https://api.example") "x"
        { message := "Response code 500 (Internal Server Error)"
        , stack := none
        , code := some (.str "ERR_NON_2XX_3XX_RESPONSE")
        , response := some { statusCode := 500
                           , contentType := some "text/plain"
                           , body := some "oops" } })) "POST"
      = false :=
  ⟨by decide, by decide⟩

/-- Claim C1 as amended: every failing call throws rather than returns, but the
two halves of the original claim hold only case by case: an HTTPError or
CancelError failure invokes the logger failure path exactly once and throws a
RequestException or ProblemDetailsError; any other Error failure (a transport
error of another kind, or the SyntaxError from parsing a malformed 2xx body,
which also logs one success first) throws a RequestException with no logFailure
invocation at all; and a thrown non-Error value is rethrown unchanged, not
wrapped.  The original claim that logFailure runs exactly once on every failed
call, and that only the two public exception types can propagate, is refuted by
the counterexample. -/
theorem C1_logging_and_throwing (p : Option String) (path : String) :
    (∀ e, (requestJson p path (.failure (.httpErr e))).logFailures = 1 ∧
          ∃ t, (requestJson p path (.failure (.httpErr e))).thrown = some t ∧
               t.isPublicException = true) ∧
    (∀ e, (requestJson p path (.failure (.cancelErr e))).logFailures = 1 ∧
          ∃ t, (requestJson p path (.failure (.cancelErr e))).thrown = some t ∧
               t.isPublicException = true) ∧
    (∀ e, (requestJson p path (.failure (.otherErr e))).logFailures = 0 ∧
          (requestJson p path (.failure (.otherErr e))).thrown
            = some (.reqEx (genericReqEx p (sanitizePath path) none e))) ∧
    (∀ v, (requestJson p path (.failure (.nonError v))).logFailures = 0 ∧
          (requestJson p path (.failure (.nonError v))).thrown = some (.raw v)) ∧
    (∀ b, match jsParse b with
          | some j =>
            (requestJson p path (.success b)).returned = some j ∧
            (requestJson p path (.success b)).thrown = none ∧
            (requestJson p path (.success b)).logSuccesses = 1 ∧
            (requestJson p path (.success b)).logFailures = 0
          | none =>
            (requestJson p path (.success b)).logSuccesses = 1 ∧
            (requestJson p path (.success b)).logFailures = 0 ∧
            (requestJson p path (.success b)).thrown
              = some (.reqEx (genericReqEx p (sanitizePath path) none (jsonSyntaxError b)))) := by
  refine ⟨?_, ?_, ?_, ?_, ?_⟩
  · intro e
    exact ⟨rfl, classifyHttpOrCancel p (sanitizePath path) e, rfl,
      classify_isPublic p (sanitizePath path) e⟩
  · intro e
    exact ⟨rfl, classifyHttpOrCancel p (sanitizePath path) e, rfl,
      classify_isPublic p (sanitizePath path) e⟩
  · intro e
    exact ⟨rfl, rfl⟩
  · intro v
    exact ⟨rfl, rfl⟩
  · intro b
    cases hJ : jsParse b with
    | some j => simp [requestJson, hJ]
    | none => simp [requestJson, hJ, logAndCreateError]

theorem C1_counterexample :
    ((requestJson (some "https://api.example") "posts" (.success "not json")).thrown.isSome
        = true ∧
     (requestJson (some "https://api.example") "posts" (.success "not json")).logFailures
        = 0 ∧
     ¬((requestJson (some "https://api.example") "posts" (.success "not json")).logFailures
        = 1)) ∧
    (match (requestJson (some "https://api.example") "posts"
        (.failure (.nonError (Js.str "boom")))).thrown with
     | some t => t.isPublicException
     | none => true) = false :=
  ⟨⟨by decide, by decide, by decide⟩, by decide⟩


end TibberHttp
